import Mathlib

/-!
Verification of the vcpkg-package-readme-mcp-server core against its
natural-language specification.

The development shallowly embeds the TypeScript sources:
  * `src/services/cache.ts`   — the in-memory TTL / size-bounded cache,
  * `src/services/readme-parser.ts` — the Markdown usage-example extractor,
  * the search-packages tool (scoring engine and search pipeline).

JavaScript `Map` iteration/insertion order is modelled by association lists,
`Date.now()` by an explicit `now : Nat` argument (epoch milliseconds), and
`JSON.stringify` by a serialization-length oracle (`none` when it throws).
-/

namespace VcpkgMcp

/-! ## Cache data model (src/services/cache.ts) -/

/-- A cache entry as stored by `MemoryCache`: the cached data, the insertion
timestamp (epoch ms, `Date.now()` at `set` time) and the time-to-live in ms. -/
structure CacheEntry (α : Type) where
  data : α
  timestamp : Nat
  ttl : Nat
deriving DecidableEq

/-- The `CacheStats` record of `MemoryCache` (hits, misses, approximate size in
bytes, maximum size in bytes). -/
structure CacheStats where
  hits : Nat
  misses : Nat
  size : Nat
  maxSize : Nat
deriving DecidableEq

/-- The `MemoryCache` state: the underlying `Map` (modelled as an association
list in insertion order, keys unique) together with its stats. -/
structure MemoryCache (α : Type) where
  entries : List (String × CacheEntry α)
  stats : CacheStats
deriving DecidableEq

/-- `Map.prototype.get`: first (unique) binding of the key. -/
def mapGet {α : Type} : List (String × CacheEntry α) → String → Option (CacheEntry α)
  | [], _ => none
  | (k', e) :: t, k => if k' = k then some e else mapGet t k

/-- `Map.prototype.set`: replace the binding in place if the key is present,
otherwise append at the end (JS `Map` keeps insertion order). -/
def mapSet {α : Type} : List (String × CacheEntry α) → String → CacheEntry α →
    List (String × CacheEntry α)
  | [], k, e => [(k, e)]
  | (k', e') :: t, k, e => if k' = k then (k, e) :: t else (k', e') :: mapSet t k e

/-- `Map.prototype.delete`: remove the binding of the key (if present). -/
def mapDelete {α : Type} : List (String × CacheEntry α) → String →
    List (String × CacheEntry α)
  | [], _ => []
  | (k', e') :: t, k => if k' = k then t else (k', e') :: mapDelete t k

/-- `MemoryCache.estimateSize`: `JSON.stringify(data).length * 2`, falling back
to the constant `1000` when serialization throws.  `JSON.stringify` is modelled
by the length oracle `sLen` (`some n` = succeeds with output length `n`,
`none` = throws, e.g. on a circular structure); the function itself is total,
mirroring the `try`/`catch` in the source. -/
def estimateSize {α : Type} (sLen : α → Option Nat) (data : α) : Nat :=
  match sLen data with
  | some n => n * 2
  | none => 1000

/-- `MemoryCache.updateSize`: recompute `stats.size` as the sum of the
estimated sizes of all stored entries (note the source estimates the size of
each whole `entry`, hence the oracle over `CacheEntry α`). -/
def updateSize {α : Type} (sE : CacheEntry α → Option Nat) (c : MemoryCache α) :
    MemoryCache α :=
  { c with stats.size := (c.entries.map (fun p => estimateSize sE p.2)).sum }

/-- `MemoryCache.get`: miss on absent key; expired entries
(`now > timestamp + ttl`) are deleted as a side effect and count as misses;
otherwise a hit returning the data. -/
def MemoryCache.get {α : Type} (sE : CacheEntry α → Option Nat)
    (c : MemoryCache α) (key : String) (now : Nat) :
    Option α × MemoryCache α :=
  match mapGet c.entries key with
  | none => (none, { c with stats.misses := c.stats.misses + 1 })
  | some entry =>
    if now > entry.timestamp + entry.ttl then
      let c1 := updateSize sE { c with entries := mapDelete c.entries key }
      (none, { c1 with stats.misses := c1.stats.misses + 1 })
    else
      (some entry.data, { c with stats.hits := c.stats.hits + 1 })

/-- `MemoryCache.has`: like `get` (including lazy removal of an expired
entry) but without touching the hit/miss counters. -/
def MemoryCache.has {α : Type} (sE : CacheEntry α → Option Nat)
    (c : MemoryCache α) (key : String) (now : Nat) : Bool × MemoryCache α :=
  match mapGet c.entries key with
  | none => (false, c)
  | some entry =>
    if now > entry.timestamp + entry.ttl then
      (false, updateSize sE { c with entries := mapDelete c.entries key })
    else
      (true, c)

/-- One iteration of the `evictLRU` scan loop: remember the key of the entry
with the smallest timestamp seen so far (strictly below the running minimum,
which starts at `Date.now()`). -/
def evictScanStep {α : Type} (acc : Option String × Nat)
    (p : String × CacheEntry α) : Option String × Nat :=
  if p.2.timestamp < acc.2 then (some p.1, p.2.timestamp) else acc

/-- `MemoryCache.evictLRU`: scan all entries for the one with the smallest
timestamp, starting the comparison from `oldestTimestamp = Date.now()`, and
delete it if one was found (only entries with `timestamp < now` qualify). -/
def MemoryCache.evictLRU {α : Type} (c : MemoryCache α) (now : Nat) :
    MemoryCache α :=
  match (c.entries.foldl evictScanStep (none, now)).1 with
  | some k => { c with entries := mapDelete c.entries k }
  | none => c

/-- `MemoryCache.set`: estimate the size of the new data; if the current
aggregate size plus that estimate exceeds `maxSize`, call `evictLRU` once;
then insert the entry (timestamp `now`) and recompute the aggregate size. -/
def MemoryCache.set {α : Type} (sD : α → Option Nat)
    (sE : CacheEntry α → Option Nat) (c : MemoryCache α) (key : String)
    (data : α) (ttl : Nat) (now : Nat) : MemoryCache α :=
  let dataSize := estimateSize sD data
  let c1 := if c.stats.size + dataSize > c.stats.maxSize then c.evictLRU now else c
  let entry : CacheEntry α := ⟨data, now, ttl⟩
  updateSize sE { c1 with entries := mapSet c1.entries key entry }

/-- JS `Map` invariant: keys are unique. -/
def WellFormed {α : Type} (c : MemoryCache α) : Prop :=
  (c.entries.map Prod.fst).Nodup

instance {α : Type} (c : MemoryCache α) : Decidable (WellFormed c) := by
  unfold WellFormed
  infer_instance

/-! ### Association-list lemmas -/

theorem mapGet_mapSet_self {α : Type} (l : List (String × CacheEntry α))
    (k : String) (e : CacheEntry α) : mapGet (mapSet l k e) k = some e := by
  induction l with
  | nil => simp [mapSet, mapGet]
  | cons h t ih =>
    obtain ⟨k', e'⟩ := h
    by_cases hk : k' = k
    · simp [mapSet, hk, mapGet]
    · simp [mapSet, hk, mapGet, ih]

theorem mapGet_eq_none_of_not_mem {α : Type} (l : List (String × CacheEntry α))
    (k : String) (h : k ∉ l.map Prod.fst) : mapGet l k = none := by
  induction l with
  | nil => simp [mapGet]
  | cons p t ih =>
    obtain ⟨k', e'⟩ := p
    simp only [List.map_cons, List.mem_cons] at h
    push_neg at h
    have hne : ¬ k' = k := fun hc => h.1 hc.symm
    simp [mapGet, hne, ih h.2]

theorem mapDelete_keys_sublist {α : Type} (l : List (String × CacheEntry α))
    (k : String) : ((mapDelete l k).map Prod.fst).Sublist (l.map Prod.fst) := by
  induction l with
  | nil => simp [mapDelete]
  | cons p t ih =>
    obtain ⟨k', e'⟩ := p
    by_cases hk : k' = k
    · simp only [mapDelete, if_pos hk]
      exact List.sublist_cons_self k' (t.map Prod.fst)
    · simpa [mapDelete, hk] using ih.cons₂ k'

theorem mapGet_mapDelete_self {α : Type} (l : List (String × CacheEntry α))
    (k : String) (h : (l.map Prod.fst).Nodup) : mapGet (mapDelete l k) k = none := by
  induction l with
  | nil => simp [mapDelete, mapGet]
  | cons p t ih =>
    obtain ⟨k', e'⟩ := p
    simp only [List.map_cons, List.nodup_cons] at h
    by_cases hk : k' = k
    · subst hk
      simp only [mapDelete, if_pos rfl]
      exact mapGet_eq_none_of_not_mem t k' h.1
    · simp [mapDelete, hk, mapGet, ih h.2]

theorem mapSet_keys {α : Type} (t : List (String × CacheEntry α)) (k : String)
    (e : CacheEntry α) :
    (mapSet t k e).map Prod.fst =
      if k ∈ t.map Prod.fst then t.map Prod.fst else t.map Prod.fst ++ [k] := by
  induction t with
  | nil => simp [mapSet]
  | cons p t ihh =>
    obtain ⟨k', e'⟩ := p
    by_cases hk : k' = k
    · simp [mapSet, hk]
    · have hne : ¬ k = k' := fun hc => hk hc.symm
      simp only [mapSet, if_neg hk, List.map_cons, ihh, List.mem_cons, hne,
        false_or]
      split <;> simp

theorem mapSet_keys_nodup {α : Type} (l : List (String × CacheEntry α))
    (k : String) (e : CacheEntry α) (h : (l.map Prod.fst).Nodup) :
    ((mapSet l k e).map Prod.fst).Nodup := by
  rw [mapSet_keys]
  split
  · exact h
  · next hmem =>
    simpa [List.nodup_append, hmem] using h

theorem evictLRU_keys_sublist {α : Type} (c : MemoryCache α) (now : Nat) :
    ((c.evictLRU now).entries.map Prod.fst).Sublist (c.entries.map Prod.fst) := by
  unfold MemoryCache.evictLRU
  split
  · exact mapDelete_keys_sublist _ _
  · exact List.Sublist.refl _

theorem mapDelete_length_of_mem {α : Type} (l : List (String × CacheEntry α))
    (k : String) (h : k ∈ l.map Prod.fst) :
    (mapDelete l k).length + 1 = l.length := by
  induction l with
  | nil => simp at h
  | cons p t ih =>
    obtain ⟨k', e'⟩ := p
    by_cases hk : k' = k
    · simp [mapDelete, hk]
    · have hne : ¬ k = k' := fun hc => hk hc.symm
      simp only [List.map_cons, List.mem_cons, hne, false_or] at h
      simp [mapDelete, hk, ih h]

theorem set_entries_eq {α : Type} (sD : α → Option Nat)
    (sE : CacheEntry α → Option Nat) (c : MemoryCache α) (key : String)
    (data : α) (ttl now : Nat) :
    (c.set sD sE key data ttl now).entries =
      mapSet (if c.stats.size + estimateSize sD data > c.stats.maxSize then
        (c.evictLRU now).entries else c.entries) key ⟨data, now, ttl⟩ := by
  by_cases h : c.stats.size + estimateSize sD data > c.stats.maxSize
  · simp [MemoryCache.set, updateSize, h]
  · simp [MemoryCache.set, updateSize, h]

theorem set_mapGet_self {α : Type} (sD : α → Option Nat)
    (sE : CacheEntry α → Option Nat) (c : MemoryCache α) (key : String)
    (data : α) (ttl now : Nat) :
    mapGet (c.set sD sE key data ttl now).entries key = some ⟨data, now, ttl⟩ := by
  rw [set_entries_eq]
  exact mapGet_mapSet_self _ _ _

theorem set_keys_nodup {α : Type} (sD : α → Option Nat)
    (sE : CacheEntry α → Option Nat) (c : MemoryCache α) (key : String)
    (data : α) (ttl now : Nat) (hwf : WellFormed c) :
    (((c.set sD sE key data ttl now).entries).map Prod.fst).Nodup := by
  rw [set_entries_eq]
  apply mapSet_keys_nodup
  split
  · exact (evictLRU_keys_sublist c now).nodup hwf
  · exact hwf

/-! ### Eviction-scan lemmas -/

theorem evictScan_le {α : Type} (l : List (String × CacheEntry α))
    (acc : Option String × Nat) :
    (l.foldl evictScanStep acc).2 ≤ acc.2 ∧
      ∀ p ∈ l, (l.foldl evictScanStep acc).2 ≤ p.2.timestamp := by
  induction l generalizing acc with
  | nil => exact ⟨le_rfl, by simp⟩
  | cons p t ih =>
    have hstep : (evictScanStep acc p).2 ≤ acc.2 ∧
        (evictScanStep acc p).2 ≤ p.2.timestamp := by
      unfold evictScanStep
      split
      · next hlt => exact ⟨Nat.le_of_lt hlt, le_rfl⟩
      · next hlt => exact ⟨le_rfl, Nat.le_of_not_lt hlt⟩
    have hmain := ih (evictScanStep acc p)
    refine ⟨le_trans hmain.1 hstep.1, ?_⟩
    intro q hq
    rcases List.mem_cons.mp hq with hq | hq
    · subst hq
      exact le_trans hmain.1 hstep.2
    · exact hmain.2 q hq

theorem evictScan_origin {α : Type} (l : List (String × CacheEntry α))
    (acc : Option String × Nat) :
    l.foldl evictScanStep acc = acc ∨
      ∃ p ∈ l, (l.foldl evictScanStep acc).1 = some p.1 ∧
        (l.foldl evictScanStep acc).2 = p.2.timestamp := by
  induction l generalizing acc with
  | nil => exact Or.inl rfl
  | cons p t ih =>
    rcases ih (evictScanStep acc p) with h | h
    · by_cases hlt : p.2.timestamp < acc.2
      · refine Or.inr ⟨p, List.mem_cons_self p t, ?_⟩
        have hstep : evictScanStep acc p = (some p.1, p.2.timestamp) := by
          simp [evictScanStep, hlt]
        rw [List.foldl_cons, h, hstep]
        exact ⟨rfl, rfl⟩
      · have hstep : evictScanStep acc p = acc := by
          simp [evictScanStep, hlt]
        rw [List.foldl_cons, h, hstep]
        exact Or.inl rfl
    · obtain ⟨q, hq, h1, h2⟩ := h
      exact Or.inr ⟨q, List.mem_cons_of_mem p hq, h1, h2⟩

/-! ## Claim C1 -/

/-- C1: for any `ttlMs > 0`, after `set(k, v, ttlMs)` at time `now`,
a `get(k)` before `ttlMs` has elapsed returns `v`; a `get(k)` strictly more
than `ttlMs` after the insertion returns absent, removes the expired entry as
a side effect, and a subsequent `has(k)` (at any time) is `false`. -/
theorem cache_ttl_get_has {α : Type} (sD : α → Option Nat)
    (sE : CacheEntry α → Option Nat) (c : MemoryCache α) (k : String) (v : α)
    (ttl now : Nat) (_httl : 0 < ttl) (hwf : WellFormed c) :
    (∀ now', now ≤ now' → now' - now < ttl →
      ((c.set sD sE k v ttl now).get sE k now').1 = some v) ∧
    (∀ now', now + ttl < now' →
      ((c.set sD sE k v ttl now).get sE k now').1 = none ∧
      mapGet ((c.set sD sE k v ttl now).get sE k now').2.entries k = none ∧
      ∀ now'', ((((c.set sD sE k v ttl now).get sE k now').2).has sE k now'').1
        = false) := by
  have hentry := set_mapGet_self sD sE c k v ttl now
  have hnodup := set_keys_nodup sD sE c k v ttl now hwf
  constructor
  · intro now' hle hlt
    have hcond : ¬ (now' > now + ttl) := by omega
    simp [MemoryCache.get, hentry, hcond]
  · intro now' hgt
    have hdel : mapGet (mapDelete (c.set sD sE k v ttl now).entries k) k
        = none := mapGet_mapDelete_self _ k hnodup
    refine ⟨?_, ?_, ?_⟩
    · simp [MemoryCache.get, hentry, hgt]
    · simp [MemoryCache.get, hentry, hgt, updateSize, hdel]
    · intro now''
      simp [MemoryCache.get, hentry, hgt, MemoryCache.has, updateSize, hdel]

/-- C1 witness: a concrete instantiation of `cache_ttl_get_has` at
`ttl = 10`, `now = 100`, on an initially empty cache. -/
theorem cache_ttl_get_has_witness :
    0 < 10 ∧
    (((⟨[], 0, 0, 0, 50⟩ : MemoryCache Nat).set (fun _ => some 2)
        (fun _ => some 7) "k" 5 10 100).get (fun _ => some 7) "k" 105).1
      = some 5 := by
  refine ⟨by decide, ?_⟩
  exact (cache_ttl_get_has (fun _ => some 2) (fun _ => some 7)
    ⟨[], 0, 0, 0, 50⟩ "k" 5 10 100 (by decide) (by decide)).1 105 (by decide)
      (by decide)

/-! ## Claim C2 -/

/-- C2 counterexample: with a full cache whose only entry was inserted at the
same millisecond as the current `set` call, the size bound is exceeded and the
cache is non-empty, yet no prior entry is evicted (the `evictLRU` scan only
considers entries with `timestamp < Date.now()`), refuting the claim that
exactly one prior entry is always removed. -/
theorem cache_evict_counterexample :
    ((((⟨[], 0, 0, 0, 10⟩ : MemoryCache Nat).set (fun _ => some 3)
        (fun _ => some 10) "a" 1 3 5).entries ≠ []) ∧
     (((⟨[], 0, 0, 0, 10⟩ : MemoryCache Nat).set (fun _ => some 3)
        (fun _ => some 10) "a" 1 3 5).stats.size + estimateSize (fun _ => some 3) 2
        > ((⟨[], 0, 0, 0, 10⟩ : MemoryCache Nat).set (fun _ => some 3)
        (fun _ => some 10) "a" 1 3 5).stats.maxSize) ∧
     ∀ p ∈ (((⟨[], 0, 0, 0, 10⟩ : MemoryCache Nat).set (fun _ => some 3)
        (fun _ => some 10) "a" 1 3 5).entries),
       p ∈ ((((⟨[], 0, 0, 0, 10⟩ : MemoryCache Nat).set (fun _ => some 3)
        (fun _ => some 10) "a" 1 3 5).set (fun _ => some 3)
        (fun _ => some 10) "b" 2 3 5).entries)) := by
  decide

/-- C2 (amended): when `set` is called while the aggregate size plus the new
estimate exceeds `maxSizeBytes` and some entry is strictly older than the
current time, exactly one prior entry — one with the globally smallest
insertion timestamp — is removed before the insertion; and the new entry is
always inserted.  (If no entry has `timestamp < now`, nothing is evicted:
see `cache_evict_counterexample`.) -/
theorem cache_evict_amended {α : Type} (sD : α → Option Nat)
    (sE : CacheEntry α → Option Nat) (c : MemoryCache α) (k : String) (v : α)
    (ttl now : Nat)
    (hover : c.stats.size + estimateSize sD v > c.stats.maxSize)
    (hold : ∃ p ∈ c.entries, p.2.timestamp < now) :
    ∃ k₀ e₀, (k₀, e₀) ∈ c.entries ∧ e₀.timestamp < now ∧
      (∀ p ∈ c.entries, e₀.timestamp ≤ p.2.timestamp) ∧
      (c.set sD sE k v ttl now).entries =
        mapSet (mapDelete c.entries k₀) k ⟨v, now, ttl⟩ ∧
      (mapDelete c.entries k₀).length + 1 = c.entries.length ∧
      mapGet (c.set sD sE k v ttl now).entries k = some ⟨v, now, ttl⟩ := by
  obtain ⟨p₀, hp₀, hts₀⟩ := hold
  have hle := evictScan_le c.entries ((none : Option String), now)
  have hlt : (c.entries.foldl evictScanStep (none, now)).2 < now :=
    lt_of_le_of_lt (hle.2 p₀ hp₀) hts₀
  rcases evictScan_origin c.entries ((none : Option String), now) with heq | hq
  · rw [heq] at hlt
    exact absurd hlt (lt_irrefl now)
  · obtain ⟨q, hq, h1, h2⟩ := hq
    refine ⟨q.1, q.2, by simpa using hq, by rw [← h2]; exact hlt, ?_, ?_, ?_, ?_⟩
    · intro p hp
      rw [← h2]
      exact hle.2 p hp
    · rw [set_entries_eq, if_pos hover]
      unfold MemoryCache.evictLRU
      rw [h1]
    · apply mapDelete_length_of_mem
      exact List.mem_map.mpr ⟨q, hq, rfl⟩
    · exact set_mapGet_self sD sE c k v ttl now

/-- C2 amended witness: concrete cache with one entry inserted at time 1;
a `set` at time 5 that overflows the bound evicts exactly that entry and
inserts the new one. -/
theorem cache_evict_amended_witness :
    (((⟨[("a", ⟨7, 1, 3⟩)], 0, 0, 20, 10⟩ : MemoryCache Nat).stats.size
        + estimateSize (fun _ => some 3) 2
        > (⟨[("a", ⟨7, 1, 3⟩)], 0, 0, 20, 10⟩ : MemoryCache Nat).stats.maxSize) ∧
     (∃ p ∈ (⟨[("a", ⟨7, 1, 3⟩)], 0, 0, 20, 10⟩ : MemoryCache Nat).entries,
        p.2.timestamp < 5)) ∧
    ∃ k₀ e₀,
      (k₀, e₀) ∈ (⟨[("a", ⟨7, 1, 3⟩)], 0, 0, 20, 10⟩ : MemoryCache Nat).entries ∧
      e₀.timestamp < 5 ∧
      (∀ p ∈ (⟨[("a", ⟨7, 1, 3⟩)], 0, 0, 20, 10⟩ : MemoryCache Nat).entries,
        e₀.timestamp ≤ p.2.timestamp) ∧
      ((⟨[("a", ⟨7, 1, 3⟩)], 0, 0, 20, 10⟩ : MemoryCache Nat).set
          (fun _ => some 3) (fun _ => some 10) "b" 2 4 5).entries =
        mapSet (mapDelete (⟨[("a", ⟨7, 1, 3⟩)], 0, 0, 20, 10⟩ :
          MemoryCache Nat).entries k₀) "b" ⟨2, 5, 4⟩ ∧
      (mapDelete (⟨[("a", ⟨7, 1, 3⟩)], 0, 0, 20, 10⟩ :
          MemoryCache Nat).entries k₀).length + 1 =
        (⟨[("a", ⟨7, 1, 3⟩)], 0, 0, 20, 10⟩ : MemoryCache Nat).entries.length ∧
      mapGet ((⟨[("a", ⟨7, 1, 3⟩)], 0, 0, 20, 10⟩ : MemoryCache Nat).set
          (fun _ => some 3) (fun _ => some 10) "b" 2 4 5).entries "b"
        = some ⟨2, 5, 4⟩ := by
  refine ⟨⟨by decide, ⟨("a", ⟨7, 1, 3⟩), by decide, by decide⟩⟩, ?_⟩
  exact cache_evict_amended (fun _ => some 3) (fun _ => some 10)
    ⟨[("a", ⟨7, 1, 3⟩)], 0, 0, 20, 10⟩ "b" 2 4 5 (by decide)
    ⟨("a", ⟨7, 1, 3⟩), by decide, by decide⟩

/-! ## Claim C7 -/

/-- C7: size estimation never raises (it is a total function here, mirroring
the source's `try`/`catch`): when serialization of `v` fails, the estimate is
the fixed fallback `1000`, `set` still stores the entry, and an immediate
`get` retrieves it. -/
theorem cache_estimate_fallback {α : Type} (sD : α → Option Nat)
    (sE : CacheEntry α → Option Nat) (c : MemoryCache α) (k : String) (v : α)
    (ttl now : Nat) (hfail : sD v = none) :
    estimateSize sD v = 1000 ∧
      ((c.set sD sE k v ttl now).get sE k now).1 = some v := by
  have hentry := set_mapGet_self sD sE c k v ttl now
  have hcond : ¬ (now > now + ttl) := by omega
  constructor
  · simp [estimateSize, hfail]
  · simp [MemoryCache.get, hentry, hcond]

/-- C7 witness: a concrete value whose serialization oracle fails. -/
theorem cache_estimate_fallback_witness :
    estimateSize (fun _ : Unit => (none : Option Nat)) () = 1000 ∧
      (((⟨[], 0, 0, 0, 10⟩ : MemoryCache Unit).set (fun _ => none)
        (fun _ => some 1) "k" () 3 5).get (fun _ => some 1) "k" 5).1 = some () := by
  exact cache_estimate_fallback (fun _ => none) (fun _ => some 1)
    ⟨[], 0, 0, 0, 10⟩ "k" () 3 5 rfl

/-! ## Scoring engine (search-packages tool)

Record shapes for external JSON data, following the declarations of
`types/index.ts` (`src/unnamed/part_004`) field for field.  TypeScript
`number` is modelled as `ℚ` where it feeds score arithmetic and as `ℕ` for
counts used as list sizes; optional fields (`?:`) are `Option`;
`Record<string, unknown>` is a key list with an uninterpreted `Unit` payload
(the embedded code never reads those records); JS truthiness on strings
("" is falsy) is made explicit where the code relies on it. -/

/-- `VcpkgDependency` (types/index.ts): the object form of a dependency. -/
structure VcpkgDependency where
  name : String
  features : Option (List String)
  platform : Option String
  host : Option Bool
deriving DecidableEq

/-- One element of `dependencies?: (string | VcpkgDependency)[]`. -/
inductive VcpkgDependencyEntry
  | str (name : String)
  | obj (dep : VcpkgDependency)
deriving DecidableEq

/-- `Record<string, unknown>`: keys with an uninterpreted payload. -/
abbrev JsUnknownRecord : Type := List (String × Unit)

/-- `VcpkgFeature` (types/index.ts). -/
structure VcpkgFeature where
  description : String
  dependencies : Option (List VcpkgDependencyEntry)
deriving DecidableEq

/-- `VcpkgPortInfo` (types/index.ts); `description` is a required string
(JS truthiness still distinguishes `""`), `features` is
`Record<string, VcpkgFeature>`. -/
structure VcpkgPortInfo where
  name : String
  version : String
  description : String
  homepage : Option String
  dependencies : Option (List VcpkgDependencyEntry)
  features : Option (List (String × VcpkgFeature))
  supports : Option String
deriving DecidableEq

/-- `VcpkgGitHubSource` (types/index.ts). -/
structure VcpkgGitHubSource where
  owner : String
  repo : String
  ref : String
  sha512 : String
deriving DecidableEq

/-- `VcpkgPortfileInfo` (types/index.ts). -/
structure VcpkgPortfileInfo where
  vcpkg_from_github : Option VcpkgGitHubSource
  vcpkg_configure : Option JsUnknownRecord
  vcpkg_install : Option JsUnknownRecord
deriving DecidableEq

/-- `GitHubLicense` (types/index.ts). -/
structure GitHubLicense where
  key : String
  name : String
  spdx_id : String
  url : String
deriving DecidableEq

/-- `GitHubUser` (types/index.ts). -/
structure GitHubUser where
  login : String
  id : ℚ
  avatar_url : String
  gravatar_id : String
  url : String
  html_url : String
  «type» : String
  site_admin : Bool
deriving DecidableEq

/-- `GitHubRepository` (types/index.ts): counts are required numbers (the
scoring code still reads them with `|| 0`, which is the identity on a present
number), `pushed_at` is the raw date string (its `new Date(...)` parsing is
modelled by an explicit parsing oracle where used). -/
structure GitHubRepository where
  id : ℚ
  name : String
  full_name : String
  owner : GitHubUser
  «private» : Bool
  html_url : String
  description : String
  fork : Bool
  created_at : String
  updated_at : String
  pushed_at : String
  stargazers_count : ℚ
  watchers_count : ℚ
  language : String
  forks_count : ℚ
  archived : Bool
  disabled : Bool
  open_issues_count : ℚ
  license : Option GitHubLicense
  default_branch : String
  topics : Option (List String)
deriving DecidableEq

/-- Empty-string test over the character data (JS `s === ''` / falsiness). -/
def strIsEmpty (s : String) : Bool := s.data.isEmpty

/-- JS truthiness of an optional string field: absent and `""` are falsy. -/
def jsTruthyStr : Option String → Bool
  | some s => !strIsEmpty s
  | none => false

/-- JS `xs && xs.length > 0` on an optional array field. -/
def jsHasElems {β : Type} : Option (List β) → Bool
  | some l => decide (0 < l.length)
  | none => false

/-! `SCORING_WEIGHTS` constant object. -/
namespace SCORING_WEIGHTS

def QUALITY : ℚ := 0.3
def POPULARITY : ℚ := 0.3
def MAINTENANCE : ℚ := 0.2
def SEARCH_RELEVANCE : ℚ := 0.2

end SCORING_WEIGHTS

/-! `QUALITY_SCORES` constant object. -/
namespace QUALITY_SCORES

def BASE : ℚ := 0.5
def DESCRIPTION : ℚ := 0.1
def HOMEPAGE : ℚ := 0.1
def DEPENDENCIES : ℚ := 0.1
def UPSTREAM_DESCRIPTION : ℚ := 0.05
def LICENSE : ℚ := 0.1
def TOPICS : ℚ := 0.05
def ARCHIVED_PENALTY : ℚ := 0.2
def DISABLED_PENALTY : ℚ := 0.3

end QUALITY_SCORES

/-! `POPULARITY_SCORES` constant object. -/
namespace POPULARITY_SCORES

def BASE : ℚ := 0.1
def STARS_MAX : ℚ := 0.4
def FORKS_MAX : ℚ := 0.3
def WATCHERS_MAX : ℚ := 0.2
def STARS_DIVISOR : ℚ := 5
def FORKS_DIVISOR : ℚ := 4
def WATCHERS_DIVISOR : ℚ := 3

end POPULARITY_SCORES

/-! `MAINTENANCE_THRESHOLDS` constant object. -/
namespace MAINTENANCE_THRESHOLDS

def RECENT_DAYS : ℚ := 30
def GOOD_DAYS : ℚ := 90
def MODERATE_DAYS : ℚ := 180
def OLD_DAYS : ℚ := 365
def LOW_ISSUES : ℚ := 10
def HIGH_ISSUES : ℚ := 100

end MAINTENANCE_THRESHOLDS

/-- `Math.max(0, Math.min(1, x))`. -/
def clamp01 (x : ℚ) : ℚ := max 0 (min 1 x)

/-- `calculateQualityScore`: base 0.5 plus bonuses for present metadata and
penalties for archived/disabled upstream repositories, clamped to [0,1]. -/
def calculateQualityScore (portInfo : VcpkgPortInfo)
    (upstreamRepo : Option GitHubRepository) : ℚ :=
  let q0 := QUALITY_SCORES.BASE
  let q1 := if !strIsEmpty portInfo.description then
    q0 + QUALITY_SCORES.DESCRIPTION else q0
  let q2 := if jsTruthyStr portInfo.homepage then
    q1 + QUALITY_SCORES.HOMEPAGE else q1
  let q3 := if jsHasElems portInfo.dependencies then
    q2 + QUALITY_SCORES.DEPENDENCIES else q2
  let q8 := match upstreamRepo with
    | none => q3
    | some r =>
      let q4 := if !strIsEmpty r.description then
        q3 + QUALITY_SCORES.UPSTREAM_DESCRIPTION else q3
      let q5 := if r.license.isSome then q4 + QUALITY_SCORES.LICENSE else q4
      let q6 := if jsHasElems r.topics then q5 + QUALITY_SCORES.TOPICS else q5
      let q7 := if r.archived then q6 - QUALITY_SCORES.ARCHIVED_PENALTY else q6
      if r.disabled then q7 - QUALITY_SCORES.DISABLED_PENALTY else q7
  clamp01 q8

/-- `calculatePopularityScore`: flat base 0.1 without upstream metadata;
otherwise a sum of log-compressed star/fork/watcher contributions, clamped to
[0,1].  `Math.log10` is modelled by the function parameter `log10`; the
source's `|| 0` guards are the identity on the required number fields. -/
def calculatePopularityScore (log10 : ℚ → ℚ)
    (upstreamRepo : Option GitHubRepository) : ℚ :=
  match upstreamRepo with
  | none => clamp01 POPULARITY_SCORES.BASE
  | some r =>
    let stars := r.stargazers_count
    let forks := r.forks_count
    let watchers := r.watchers_count
    let starsScore := min POPULARITY_SCORES.STARS_MAX
      (log10 (stars + 1) / POPULARITY_SCORES.STARS_DIVISOR)
    let forksScore := min POPULARITY_SCORES.FORKS_MAX
      (log10 (forks + 1) / POPULARITY_SCORES.FORKS_DIVISOR)
    let watchersScore := min POPULARITY_SCORES.WATCHERS_MAX
      (log10 (watchers + 1) / POPULARITY_SCORES.WATCHERS_DIVISOR)
    clamp01 (starsScore + forksScore + watchersScore)

/-- `calculateMaintenanceScore`: bucket by days since the upstream's last
push, adjust by open-issue count, clamp to [0,1].  `now` is the current epoch
time in ms (`new Date()`); `parseDate` models `new Date(r.pushed_at)` as
epoch ms. -/
def calculateMaintenanceScore (parseDate : String → ℚ) (now : ℚ)
    (upstreamRepo : Option GitHubRepository) : ℚ :=
  match upstreamRepo with
  | none => clamp01 0.5
  | some r =>
    let pushedAt := parseDate r.pushed_at
    let daysSinceUpdate := (now - pushedAt) / (1000 * 60 * 60 * 24)
    let base : ℚ :=
      if daysSinceUpdate < MAINTENANCE_THRESHOLDS.RECENT_DAYS then 1.0
      else if daysSinceUpdate < MAINTENANCE_THRESHOLDS.GOOD_DAYS then 0.8
      else if daysSinceUpdate < MAINTENANCE_THRESHOLDS.MODERATE_DAYS then 0.6
      else if daysSinceUpdate < MAINTENANCE_THRESHOLDS.OLD_DAYS then 0.4
      else 0.2
    let openIssues := r.open_issues_count
    let adjusted :=
      if openIssues < MAINTENANCE_THRESHOLDS.LOW_ISSUES then base + 0.1
      else if openIssues > MAINTENANCE_THRESHOLDS.HIGH_ISSUES then base - 0.1
      else base
    clamp01 adjusted

/-- The per-factor score detail of a search result. -/
structure ScoreDetail where
  quality : ℚ
  popularity : ℚ
  maintenance : ℚ
deriving DecidableEq

/-- The `score` field of a search result: clamped final score plus detail. -/
structure PackageScore where
  final : ℚ
  detail : ScoreDetail
deriving DecidableEq

/-- `calculateScores`: combine quality, popularity, maintenance and the
normalized raw search relevance (`searchScore / 100`) with fixed weights. -/
def calculateScores (log10 : ℚ → ℚ) (parseDate : String → ℚ) (now : ℚ)
    (portInfo : VcpkgPortInfo) (upstreamRepo : Option GitHubRepository)
    (searchScore : ℚ) : PackageScore :=
  let qualityScore := calculateQualityScore portInfo upstreamRepo
  let popularityScore := calculatePopularityScore log10 upstreamRepo
  let maintenanceScore := calculateMaintenanceScore parseDate now upstreamRepo
  let finalScore :=
    qualityScore * SCORING_WEIGHTS.QUALITY +
    popularityScore * SCORING_WEIGHTS.POPULARITY +
    maintenanceScore * SCORING_WEIGHTS.MAINTENANCE +
    (searchScore / 100) * SCORING_WEIGHTS.SEARCH_RELEVANCE
  { final := clamp01 finalScore,
    detail := ⟨qualityScore, popularityScore, maintenanceScore⟩ }

theorem clamp01_nonneg (x : ℚ) : 0 ≤ clamp01 x := le_max_left 0 _

theorem clamp01_le_one (x : ℚ) : clamp01 x ≤ 1 :=
  max_le (by norm_num) (min_le_left 1 x)

theorem clamp01_mono {x y : ℚ} (h : x ≤ y) : clamp01 x ≤ clamp01 y :=
  max_le_max le_rfl (min_le_min le_rfl h)

theorem calculateQualityScore_eq_clamp (portInfo : VcpkgPortInfo)
    (upstreamRepo : Option GitHubRepository) :
    ∃ y, calculateQualityScore portInfo upstreamRepo = clamp01 y := by
  cases upstreamRepo <;> exact ⟨_, rfl⟩

theorem calculatePopularityScore_eq_clamp (log10 : ℚ → ℚ)
    (upstreamRepo : Option GitHubRepository) :
    ∃ y, calculatePopularityScore log10 upstreamRepo = clamp01 y := by
  cases upstreamRepo <;> exact ⟨_, rfl⟩

theorem calculateMaintenanceScore_eq_clamp (parseDate : String → ℚ) (now : ℚ)
    (upstreamRepo : Option GitHubRepository) :
    ∃ y, calculateMaintenanceScore parseDate now upstreamRepo = clamp01 y := by
  cases upstreamRepo <;> exact ⟨_, rfl⟩

/-! ## Claim C4 -/

/-- C4: for every port metadata record, every optional upstream repository
record (arbitrary counts and push date) and every raw search relevance
number, the quality, popularity, maintenance and final scores all lie in
[0,1] (for any model of `Math.log10` and any current time). -/
theorem scores_within_bounds (log10 : ℚ → ℚ) (parseDate : String → ℚ)
    (now : ℚ) (portInfo : VcpkgPortInfo)
    (upstreamRepo : Option GitHubRepository) (searchScore : ℚ) :
    (0 ≤ (calculateScores log10 parseDate now portInfo upstreamRepo searchScore).detail.quality ∧
      (calculateScores log10 parseDate now portInfo upstreamRepo searchScore).detail.quality ≤ 1) ∧
    (0 ≤ (calculateScores log10 parseDate now portInfo upstreamRepo searchScore).detail.popularity ∧
      (calculateScores log10 parseDate now portInfo upstreamRepo searchScore).detail.popularity ≤ 1) ∧
    (0 ≤ (calculateScores log10 parseDate now portInfo upstreamRepo searchScore).detail.maintenance ∧
      (calculateScores log10 parseDate now portInfo upstreamRepo searchScore).detail.maintenance ≤ 1) ∧
    (0 ≤ (calculateScores log10 parseDate now portInfo upstreamRepo searchScore).final ∧
      (calculateScores log10 parseDate now portInfo upstreamRepo searchScore).final ≤ 1) := by
  obtain ⟨yq, hq⟩ := calculateQualityScore_eq_clamp portInfo upstreamRepo
  obtain ⟨yp, hp⟩ := calculatePopularityScore_eq_clamp log10 upstreamRepo
  obtain ⟨ym, hm⟩ := calculateMaintenanceScore_eq_clamp parseDate now upstreamRepo
  refine ⟨?_, ?_, ?_, ?_⟩
  · constructor
    · show 0 ≤ calculateQualityScore portInfo upstreamRepo
      rw [hq]; exact clamp01_nonneg yq
    · show calculateQualityScore portInfo upstreamRepo ≤ 1
      rw [hq]; exact clamp01_le_one yq
  · constructor
    · show 0 ≤ calculatePopularityScore log10 upstreamRepo
      rw [hp]; exact clamp01_nonneg yp
    · show calculatePopularityScore log10 upstreamRepo ≤ 1
      rw [hp]; exact clamp01_le_one yp
  · constructor
    · show 0 ≤ calculateMaintenanceScore parseDate now upstreamRepo
      rw [hm]; exact clamp01_nonneg ym
    · show calculateMaintenanceScore parseDate now upstreamRepo ≤ 1
      rw [hm]; exact clamp01_le_one ym
  · exact ⟨clamp01_nonneg _, clamp01_le_one _⟩

/-! ## Claim C6 -/

/-- A concrete `GitHubUser` for witnesses. -/
def sampleUser : GitHubUser :=
  ⟨"octo", 1, "", "", "", "", "User", false⟩

/-- A concrete `GitHubRepository` with the given star count. -/
def sampleRepo (stars : ℚ) : GitHubRepository :=
  ⟨1, "r", "o/r", sampleUser, false, "", "", false, "", "",
   "2024-01-01T00:00:00Z", stars, 0, "", 0, false, false, 0, none, "main",
   none⟩

/-- C6: `popularityScore` is monotone in the star count — for any two
upstream records differing only in `stargazers_count`, the one with more
stars never gets a smaller score (for any monotone model of `Math.log10`,
which the real `Math.log10` is on the positive reals involved here). -/
theorem popularity_monotone_in_stars (log10 : ℚ → ℚ)
    (hmono : ∀ a b : ℚ, a ≤ b → log10 a ≤ log10 b) (r : GitHubRepository)
    (s s' : ℚ) (h : s ≤ s') :
    calculatePopularityScore log10 (some { r with stargazers_count := s })
      ≤ calculatePopularityScore log10
        (some { r with stargazers_count := s' }) := by
  unfold calculatePopularityScore
  dsimp only
  apply clamp01_mono
  have hdiv : (0 : ℚ) < POPULARITY_SCORES.STARS_DIVISOR := by
    norm_num [POPULARITY_SCORES.STARS_DIVISOR]
  have hlog := hmono (s + 1) (s' + 1) (by linarith)
  have hstars : min POPULARITY_SCORES.STARS_MAX
      (log10 (s + 1) / POPULARITY_SCORES.STARS_DIVISOR) ≤
      min POPULARITY_SCORES.STARS_MAX
      (log10 (s' + 1) / POPULARITY_SCORES.STARS_DIVISOR) := by
    apply min_le_min le_rfl
    exact div_le_div_of_nonneg_right hlog hdiv.le
  exact add_le_add_right (add_le_add_right hstars _) _

/-- C6 witness: instantiation at the monotone map `fun _ => 0` and star
counts 1 ≤ 2 on a concrete repository record. -/
theorem popularity_monotone_in_stars_witness :
    calculatePopularityScore (fun _ => 0) (some (sampleRepo 1)) ≤
      calculatePopularityScore (fun _ => 0) (some (sampleRepo 2)) := by
  exact popularity_monotone_in_stars (fun _ => 0) (fun a b _ => le_rfl)
    (sampleRepo 1) 1 2 (by norm_num)

/-! ## String helpers (JS semantics, shared by search pipeline and parser) -/

/-- `String.prototype.split` with a one-character separator: keeps empty
segments, like JS. -/
def splitOnChar (sep : Char) : List Char → List (List Char)
  | [] => [[]]
  | c :: t =>
    let r := splitOnChar sep t
    if c == sep then [] :: r
    else match r with
      | h :: hs => (c :: h) :: hs
      | [] => [[c]]

/-- JS `s.split(sep)` for a single-character separator. -/
def jsSplit (sep : Char) (s : String) : List String :=
  (splitOnChar sep s.data).map (fun cs => ⟨cs⟩)

/-- JS `s.toLowerCase()` (ASCII case mapping suffices for the inputs used). -/
def jsToLower (s : String) : String := ⟨s.data.map Char.toLower⟩

/-- Whether the first list starts with the second. -/
def listStartsWith : List Char → List Char → Bool
  | _, [] => true
  | [], _ :: _ => false
  | a :: l, b :: p => a == b && listStartsWith l p

/-- Whether the first list contains the second as a contiguous sublist
(JS `String.prototype.includes`). -/
def listHasSub : List Char → List Char → Bool
  | [], p => p.isEmpty
  | a :: t, p => listStartsWith (a :: t) p || listHasSub t p

/-- JS `s.includes(sub)`. -/
def strHasSub (s sub : String) : Bool := listHasSub s.data sub.data

/-- `[...new Set(xs)]`: deduplicate keeping first occurrences. -/
def dedupStrings (l : List String) : List String :=
  l.foldl (fun acc x => if acc.contains x then acc else acc ++ [x]) []

/-! ## Search pipeline data model (search-packages tool) -/

/-- `GitHubSearchItem` (types/index.ts): one raw hit of the code-search
index. -/
structure GitHubSearchItem where
  name : String
  path : String
  sha : String
  url : String
  git_url : String
  html_url : String
  repository : GitHubRepository
  score : ℚ
deriving DecidableEq

/-- `GitHubSearchResult` (types/index.ts). -/
structure GitHubSearchResult where
  total_count : Nat
  incomplete_results : Bool
  items : List GitHubSearchItem
deriving DecidableEq

/-- One entry of the `packages` array of a search response. -/
structure PackageSearchResult where
  name : String
  version : String
  description : String
  keywords : List String
  author : String
  publisher : String
  maintainers : List String
  score : PackageScore
  searchScore : ℚ
deriving DecidableEq

/-- The search response shape `{ query, total, packages }`. -/
structure SearchPackagesResponse where
  query : String
  total : Nat
  packages : List PackageSearchResult
deriving DecidableEq

/-- The external collaborators of the search pipeline, as pure oracles:
the code-search index (`githubApi.searchPackages`), per-package port info
(`githubApi.getVcpkgPortInfo`), portfile info (`githubApi.getVcpkgPortfile`),
the upstream-repository fetch, the `Math.log10` model and the current time.
Failed or non-ok HTTP calls are `none`. -/
structure SearchEnv where
  searchIdx : String → Nat → GitHubSearchResult
  portInfoOf : String → Option VcpkgPortInfo
  portfileOf : String → Option VcpkgPortfileInfo
  fetchRepo : String → String → Option GitHubRepository
  log10 : ℚ → ℚ
  parseDate : String → ℚ
  now : ℚ

/-- `getAuthor` (src/utils/vcpkg-helpers.ts): upstream owner login when
truthy, else the fixed community author. -/
def getAuthor (_portInfo : VcpkgPortInfo)
    (upstreamRepo : Option GitHubRepository) : String :=
  match upstreamRepo with
  | some r =>
    if strIsEmpty r.owner.login then "vcpkg community" else r.owner.login
  | none => "vcpkg community"

/-- The `name` of a dependency entry (`typeof dep === 'string' ? dep :
dep.name`). -/
def depName : VcpkgDependencyEntry → String
  | .str n => n
  | .obj d => d.name

/-- `generateKeywords` (src/utils/vcpkg-helpers.ts). -/
def generateKeywords (portInfo : VcpkgPortInfo)
    (upstreamRepo : Option GitHubRepository) : List String :=
  let keywords := ["vcpkg", "cpp", "c++", "native"]
  let keywords := match upstreamRepo with
    | some r =>
      if strIsEmpty r.language then keywords else keywords ++ [jsToLower r.language]
    | none => keywords
  let keywords := match upstreamRepo with
    | some r =>
      match r.topics with
      | some ts => keywords ++ ts.take 5
      | none => keywords
    | none => keywords
  let keywords := match portInfo.dependencies with
    | some deps =>
      if 0 < deps.length then
        (deps.take 3).foldl (fun acc dep =>
          let dn := depName dep
          let acc := if strHasSub dn "boost" then acc ++ ["boost"] else acc
          let acc := if strHasSub dn "qt" then acc ++ ["qt"] else acc
          if strHasSub dn "opencv" then acc ++ ["opencv"] else acc)
          (keywords ++ ["dependencies"])
      else keywords
    | none => keywords
  dedupStrings keywords

/-- `getMaintainers` (src/utils/vcpkg-helpers.ts). -/
def getMaintainers (upstreamRepo : Option GitHubRepository) : List String :=
  match upstreamRepo with
  | some r =>
    if strIsEmpty r.owner.login then ["vcpkg team"]
    else ["vcpkg team", r.owner.login]
  | none => ["vcpkg team"]

/-- `getUpstreamRepository`: resolve the upstream GitHub repository named in
the portfile, best-effort (`none` on absence or fetch failure). -/
def getUpstreamRepository (env : SearchEnv)
    (portfileInfo : Option VcpkgPortfileInfo) : Option GitHubRepository :=
  match portfileInfo with
  | none => none
  | some pf =>
    match pf.vcpkg_from_github with
    | none => none
    | some gh => env.fetchRepo gh.owner gh.repo

/-- The JS guard `t !== undefined && x < t` used by the quality/popularity
filters. -/
def belowThreshold (t : Option ℚ) (x : ℚ) : Bool :=
  match t with
  | some v => decide (x < v)
  | none => false

/-- JS `s || ''` on a required string field: `""` for a falsy value, the
string itself otherwise. -/
def jsOrEmpty (s : String) : String := if strIsEmpty s then "" else s

/-- `processSearchResultItem`: derive the package name from the item path
(`ports/<name>/...`), resolve metadata, compute scores, apply the optional
quality/popularity threshold filters, and build the result record; `none`
models both `return null` and a thrown-and-swallowed per-item error. -/
def processSearchResultItem (env : SearchEnv) (quality popularity : Option ℚ)
    (item : GitHubSearchItem) : Option PackageSearchResult :=
  match jsSplit '/' item.path with
  | p0 :: p1 :: _ =>
    if p0 ≠ "ports" then none
    else if strIsEmpty p1 then none
    else
      match env.portInfoOf p1 with
      | none => none
      | some portInfo =>
        let portfileInfo := env.portfileOf p1
        let upstreamRepo := getUpstreamRepository env portfileInfo
        let scores := calculateScores env.log10 env.parseDate env.now
          portInfo upstreamRepo item.score
        if belowThreshold quality scores.detail.quality then none
        else if belowThreshold popularity scores.detail.popularity then none
        else some {
          name := p1,
          version := portInfo.version,
          description := jsOrEmpty portInfo.description,
          keywords := generateKeywords portInfo upstreamRepo,
          author := getAuthor portInfo upstreamRepo,
          publisher := "vcpkg",
          maintainers := getMaintainers upstreamRepo,
          score := scores,
          searchScore := item.score }
  | _ => none

/-- `processSearchResults`: process the raw hits in order, skipping the ones
that fail (the `try`/`catch`-and-`continue` loop). -/
def processSearchResults (env : SearchEnv) (quality popularity : Option ℚ)
    (items : List GitHubSearchItem) : List PackageSearchResult :=
  items.filterMap (processSearchResultItem env quality popularity)

/-- Stable insertion used to model `Array.prototype.sort` (ES2019 sort is
stable; the engine's algorithm is unspecified, so any sort realizing the
comparator is a faithful model). -/
def jsSortInsert {β : Type} (le : β → β → Bool) (a : β) : List β → List β
  | [] => [a]
  | b :: t => if le a b then a :: b :: t else b :: jsSortInsert le a t

/-- Model of `Array.prototype.sort` with a comparator-induced relation. -/
def jsSortBy {β : Type} (le : β → β → Bool) : List β → List β
  | [] => []
  | a :: t => jsSortInsert le a (jsSortBy le t)

/-- `buildSearchResponse`. -/
def buildSearchResponse (query : String) (totalCount : Nat)
    (packages : List PackageSearchResult) : SearchPackagesResponse :=
  { query := query, total := totalCount, packages := packages }

/-- The cache-miss path of `searchPackages`: query the index with
`min(limit, 100)`, process, sort by final score descending
(comparator `(a, b) => b.score.final - a.score.final`), truncate to `limit`,
and build the response with the raw `total_count`.  (On a cache hit the
previously stored response for the identical `(query, limit, quality,
popularity)` key is returned verbatim instead.) -/
def searchPackagesUncached (env : SearchEnv) (query : String) (limit : Nat)
    (quality popularity : Option ℚ) : SearchPackagesResponse :=
  let searchResult := env.searchIdx query (min limit 100)
  let packages := processSearchResults env quality popularity searchResult.items
  let sorted := jsSortBy (fun a b => decide (b.score.final ≤ a.score.final))
    packages
  let limitedPackages := sorted.take limit
  buildSearchResponse query searchResult.total_count limitedPackages

theorem jsSortInsert_perm {β : Type} (le : β → β → Bool) (a : β) (l : List β) :
    (jsSortInsert le a l).Perm (a :: l) := by
  induction l with
  | nil => exact List.Perm.refl _
  | cons b t ih =>
    unfold jsSortInsert
    split
    · exact List.Perm.refl _
    · exact (ih.cons b).trans (List.Perm.swap a b t)

theorem jsSortBy_perm {β : Type} (le : β → β → Bool) (l : List β) :
    (jsSortBy le l).Perm l := by
  induction l with
  | nil => exact List.Perm.refl _
  | cons a t ih =>
    exact (jsSortInsert_perm le a (jsSortBy le t)).trans (ih.cons a)

theorem processItem_filters (env : SearchEnv) (qopt popt : Option ℚ)
    (item : GitHubSearchItem) (p : PackageSearchResult)
    (h : processSearchResultItem env qopt popt item = some p) :
    belowThreshold qopt p.score.detail.quality = false ∧
      belowThreshold popt p.score.detail.popularity = false := by
  unfold processSearchResultItem at h
  dsimp only at h
  split at h
  · split at h
    · exact absurd h (by simp)
    · split at h
      · exact absurd h (by simp)
      · split at h
        · exact absurd h (by simp)
        · split at h
          · exact absurd h (by simp)
          · split at h
            · exact absurd h (by simp)
            · rename_i hq hp
              injection h with h
              subst h
              simp only [Bool.not_eq_true] at hq hp
              exact ⟨hq, hp⟩
  · exact absurd h (by simp)

theorem searchPackages_packages_sub (env : SearchEnv) (query : String)
    (limit : Nat) (qopt popt : Option ℚ) (p : PackageSearchResult)
    (hp : p ∈ (searchPackagesUncached env query limit qopt popt).packages) :
    ∃ item ∈ (env.searchIdx query (min limit 100)).items,
      processSearchResultItem env qopt popt item = some p := by
  unfold searchPackagesUncached buildSearchResponse at hp
  simp only at hp
  have hp1 := List.mem_of_mem_take hp
  have hp2 := (jsSortBy_perm _ _).mem_iff.mp hp1
  exact List.mem_filterMap.mp hp2

/-! ## Claim C5 -/

/-- C5: every package returned by a search with a quality threshold `q` has
quality score ≥ `q`; with a popularity threshold, popularity score ≥ that
threshold; the `total` field always equals the raw unfiltered index count,
and when every candidate is filtered out the `packages` list is empty. -/
theorem search_filter_thresholds (env : SearchEnv) (query : String)
    (limit : Nat) (qopt popt : Option ℚ) :
    (∀ q, qopt = some q →
      ∀ p ∈ (searchPackagesUncached env query limit qopt popt).packages,
        q ≤ p.score.detail.quality) ∧
    (∀ pp, popt = some pp →
      ∀ p ∈ (searchPackagesUncached env query limit qopt popt).packages,
        pp ≤ p.score.detail.popularity) ∧
    (searchPackagesUncached env query limit qopt popt).total =
      (env.searchIdx query (min limit 100)).total_count ∧
    ((∀ item ∈ (env.searchIdx query (min limit 100)).items,
        processSearchResultItem env qopt popt item = none) →
      (searchPackagesUncached env query limit qopt popt).packages = []) := by
  refine ⟨?_, ?_, rfl, ?_⟩
  · intro q hq p hp
    obtain ⟨item, _, hsome⟩ :=
      searchPackages_packages_sub env query limit qopt popt p hp
    have hf := (processItem_filters env qopt popt item p hsome).1
    rw [hq] at hf
    simpa [belowThreshold] using hf
  · intro pp hpp p hp
    obtain ⟨item, _, hsome⟩ :=
      searchPackages_packages_sub env query limit qopt popt p hp
    have hf := (processItem_filters env qopt popt item p hsome).2
    rw [hpp] at hf
    simpa [belowThreshold] using hf
  · intro hall
    have hnil : processSearchResults env qopt popt
        (env.searchIdx query (min limit 100)).items = [] := by
      unfold processSearchResults
      exact List.filterMap_eq_nil_iff.mpr hall
    unfold searchPackagesUncached buildSearchResponse
    simp [hnil, jsSortBy]

/-- C5 witness: with an index reporting `total_count = 3` and no processable
items, the response `total` is still 3 and the package list is empty. -/
theorem search_filter_thresholds_witness :
    (searchPackagesUncached
      ⟨fun _ _ => ⟨3, false, []⟩, fun _ => none, fun _ => none,
        fun _ _ => none, fun _ => 0, fun _ => 0, 0⟩ "json" 5 (some (1/2)) none).total = 3 ∧
    (searchPackagesUncached
      ⟨fun _ _ => ⟨3, false, []⟩, fun _ => none, fun _ => none,
        fun _ _ => none, fun _ => 0, fun _ => 0, 0⟩ "json" 5 (some (1/2)) none).packages = [] := by
  have h := search_filter_thresholds
    ⟨fun _ _ => ⟨3, false, []⟩, fun _ => none, fun _ => none,
      fun _ _ => none, fun _ => 0, fun _ => 0, 0⟩ "json" 5 (some (1/2)) none
  exact ⟨h.2.2.1, h.2.2.2 (by intro item hitem; simp at hitem)⟩

/-! ## Claim C10 -/

/-- C10: whenever the external index honors the requested page size, a search
with `limit > 100` (the tool advertises limits up to 250) still returns at
most 100 packages, because the index is queried with `min(limit, 100)` and
each package derives from exactly one index item. -/
theorem search_result_size_cap (env : SearchEnv) (query : String)
    (limit : Nat) (qopt popt : Option ℚ) (hlim : 100 < limit)
    (hidx : ∀ s n, ((env.searchIdx s n).items).length ≤ n) :
    ((searchPackagesUncached env query limit qopt popt).packages).length
      ≤ 100 := by
  unfold searchPackagesUncached buildSearchResponse
  simp only
  calc ((jsSortBy (fun a b => decide (b.score.final ≤ a.score.final))
        (processSearchResults env qopt popt
          (env.searchIdx query (min limit 100)).items)).take limit).length
      ≤ (jsSortBy (fun a b => decide (b.score.final ≤ a.score.final))
        (processSearchResults env qopt popt
          (env.searchIdx query (min limit 100)).items)).length := by
        rw [List.length_take]
        exact Nat.min_le_right _ _
    _ = (processSearchResults env qopt popt
          (env.searchIdx query (min limit 100)).items).length :=
        (jsSortBy_perm _ _).length_eq
    _ ≤ ((env.searchIdx query (min limit 100)).items).length :=
        List.length_filterMap_le _ _
    _ ≤ min limit 100 := hidx query (min limit 100)
    _ = 100 := Nat.min_eq_right (Nat.le_of_lt hlim)

/-- C10 witness: a concrete environment whose index honors the page size,
queried with `limit = 101`. -/
theorem search_result_size_cap_witness :
    100 < 101 ∧
    ((searchPackagesUncached
      ⟨fun _ _ => ⟨0, false, []⟩, fun _ => none, fun _ => none,
        fun _ _ => none, fun _ => 0, fun _ => 0, 0⟩ "json" 101 none none).packages).length ≤ 100 := by
  refine ⟨by decide, ?_⟩
  exact search_result_size_cap
    ⟨fun _ _ => ⟨0, false, []⟩, fun _ => none, fun _ => none,
      fun _ _ => none, fun _ => 0, fun _ => 0, 0⟩ "json" 101 none none (by decide)
    (fun s n => by simp)

/-! ## Readme parser (src/services/readme-parser.ts) -/

/-- JS regex `\s` on the character set occurring in the inputs (ASCII
whitespace; the full JS class also has Unicode spaces, which never occur
here). -/
def isJsSpace (c : Char) : Bool :=
  c == ' ' || c == '\t' || c == '\n' || c == '\r' ||
    c == '\x0b' || c == '\x0c'

/-- JS `s.trim()`. -/
def jsTrim (s : String) : String :=
  ⟨((s.data.dropWhile isJsSpace).reverse.dropWhile isJsSpace).reverse⟩

/-- Whether the first string starts with the second
(JS `String.prototype.startsWith`). -/
def strStartsWith (s p : String) : Bool := listStartsWith s.data p.data

/-- The heading test `line.match(/^#{1,6}\s+/)`: one to six leading `#`
followed by a whitespace character (seven or more `#` never match, since the
greedy quantifier leaves a `#`, not whitespace, after at most six). -/
def isHeadingLine (line : String) : Bool :=
  let hashes := line.data.takeWhile (fun c => c == '#')
  let rest := line.data.drop hashes.length
  decide (1 ≤ hashes.length) && decide (hashes.length ≤ 6) &&
    (match rest with
     | c :: _ => isJsSpace c
     | [] => false)

/-- `line.replace(/^#{1,6}\s+/, '')` on a line that matches the heading
pattern: drop the leading `#` run and the whitespace run after it. -/
def stripHeading (line : String) : String :=
  ⟨(line.data.dropWhile (fun c => c == '#')).dropWhile isJsSpace⟩

/-- The fixed allow-list of usage-like section names. -/
def usageSections : List String :=
  ["usage", "examples", "example", "quick start", "quickstart",
   "getting started", "how to use", "tutorial", "guide",
   "basic usage", "simple example", "sample code",
   "integration", "installation", "cmake", "vcpkg"]

/-- `isUsageSection`: substring containment in either direction against the
allow-list. -/
def isUsageSection (sectionName : String) : Bool :=
  usageSections.any (fun sec =>
    strHasSub sectionName sec || strHasSub sec sectionName)

/-- `word.charAt(0).toUpperCase() + word.slice(1)` (empty word stays empty). -/
def capitalizeWord (w : String) : String :=
  match w.data with
  | [] => ""
  | c :: t => ⟨c.toUpper :: t⟩

/-- JS `xs.join(sep)`. -/
def strJoin (sep : String) : List String → String
  | [] => ""
  | [x] => x
  | x :: xs => x ++ sep ++ strJoin sep xs

/-- `generateTitle`: capitalize each space-separated word of the section
name. -/
def generateTitle (sectionName : String) : String :=
  strJoin " " ((jsSplit ' ' sectionName).map capitalizeWord)

/-- The `languageMap` lookup table of `normalizeLanguage`. -/
def languageMapList : List (String × String) :=
  [("cpp", "cpp"), ("c++", "cpp"), ("cxx", "cpp"), ("cc", "cpp"), ("c", "c"),
   ("cmake", "cmake"), ("bash", "bash"), ("sh", "bash"), ("shell", "bash"),
   ("powershell", "powershell"), ("ps1", "powershell"), ("json", "json"),
   ("xml", "xml"), ("yaml", "yaml"), ("yml", "yaml"), ("makefile", "makefile"),
   ("make", "makefile"), ("dockerfile", "dockerfile"), ("text", "text"),
   ("txt", "text"), ("", "text")]

/-- `normalizeLanguage`: look the lower-cased trimmed tag up in the map,
passing unknown tags through unchanged. -/
def normalizeLanguage (language : String) : String :=
  let normalized := jsToLower (jsTrim language)
  match languageMapList.lookup normalized with
  | some v => v
  | none => normalized

/-- A usage example record (`description` is absent when the accumulated
description is empty: `currentDescription || undefined`). -/
structure UsageExample where
  title : String
  description : Option String
  code : String
  language : String
deriving DecidableEq

/-- The mutable locals of the `parseUsageExamples` line loop. -/
structure ScanState where
  examples : List UsageExample
  currentSection : String
  inCodeBlock : Bool
  currentCode : String
  currentLanguage : String
  currentTitle : String
  currentDescription : String
deriving DecidableEq

/-- The initial loop state. -/
def initScanState : ScanState := ⟨[], "", false, "", "", "", ""⟩

/-- `acc += (acc ? '\n' : '') + line`. -/
def jsAppendLine (acc line : String) : String :=
  if strIsEmpty acc then line else acc ++ "\n" ++ line

/-- One iteration of the `parseUsageExamples` line loop.  Branch order is the
source's: the heading test comes first, so a heading-shaped line is processed
as a heading even inside an open fenced code block. -/
def scanStep (s : ScanState) (line : String) : ScanState :=
  if isHeadingLine line then
    let header := jsToLower (stripHeading line)
    if isUsageSection header then
      { s with currentSection := header, currentTitle := stripHeading line,
               currentDescription := "" }
    else
      { s with currentSection := header }
  else if strStartsWith line "```" then
    if !s.inCodeBlock then
      let lang := jsTrim ⟨line.data.drop 3⟩
      { s with inCodeBlock := true,
               currentLanguage := if strIsEmpty lang then "text" else lang,
               currentCode := "" }
    else
      let s1 :=
        if !strIsEmpty (jsTrim s.currentCode) && isUsageSection s.currentSection
        then
          { s with examples := s.examples ++ [{
              title := if strIsEmpty s.currentTitle then
                generateTitle s.currentSection else s.currentTitle,
              description := if strIsEmpty s.currentDescription then none
                else some s.currentDescription,
              code := jsTrim s.currentCode,
              language := normalizeLanguage s.currentLanguage }] }
        else s
      { s1 with inCodeBlock := false, currentCode := "", currentLanguage := "" }
  else if s.inCodeBlock then
    { s with currentCode := jsAppendLine s.currentCode line }
  else if isUsageSection s.currentSection && !strIsEmpty (jsTrim line) &&
      !strStartsWith line "#" then
    { s with currentDescription := jsAppendLine s.currentDescription line }
  else s

/-- Case-insensitive literal match at the head of the input; returns the
number of characters consumed. -/
def matchLitCI : List Char → List Char → Option Nat
  | [], _ => some 0
  | _ :: _, [] => none
  | p :: ps, c :: cs =>
    if p.toLower == c.toLower then (matchLitCI ps cs).map (· + 1) else none

/-- Matcher for the call patterns `/name\([^)]+\)/gi`: the literal name
(case-insensitive), `(`, one or more non-`)` characters, `)`. -/
def tryCall (nm : String) (l : List Char) : Option Nat :=
  match matchLitCI nm.data l with
  | none => none
  | some k =>
    match l.drop k with
    | '(' :: r2 =>
      let body := r2.takeWhile (fun c => !(c == ')'))
      if body.isEmpty then none
      else
        match r2.drop body.length with
        | ')' :: _ => some (k + 1 + body.length + 1)
        | _ => none
    | _ => none

/-- Matcher for `/#include\s*[<"][^>"]+[>"]/gi`. -/
def tryInclude (l : List Char) : Option Nat :=
  match matchLitCI "#include".data l with
  | none => none
  | some k =>
    let r1 := l.drop k
    let ws := r1.takeWhile isJsSpace
    match r1.drop ws.length with
    | c :: r3 =>
      if c == '<' || c == '"' then
        let body := r3.takeWhile (fun d => !(d == '>') && !(d == '"'))
        if body.isEmpty then none
        else
          match r3.drop body.length with
          | d :: _ =>
            if d == '>' || d == '"' then
              some (k + ws.length + 1 + body.length + 1)
            else none
          | [] => none
      else none
    | [] => none

/-- Global regex scan (`String.prototype.match` with the `g` flag): collect
non-overlapping matches left to right, restarting after each match and
advancing one character on failure.  `fuel` bounds the recursion; every
match consumes at least one character, so `input.length + 1` suffices. -/
def scanAll (tryLen : List Char → Option Nat) : Nat → List Char → List (List Char)
  | 0, _ => []
  | _ + 1, [] => []
  | fuel + 1, c :: t =>
    match tryLen (c :: t) with
    | some n => (c :: t).take n :: scanAll tryLen fuel ((c :: t).drop n)
    | none => scanAll tryLen fuel t

/-- `extractInlineExamples`: CMake call patterns (each match longer than 10
characters becomes one example) followed by up to five `#include` matches
joined into a single example. -/
def extractInlineExamples (content : String) : List UsageExample :=
  let cs := content.data
  let fuel := cs.length + 1
  let cmakeMatches :=
    scanAll (tryCall "find_package") fuel cs ++
    scanAll (tryCall "target_link_libraries") fuel cs ++
    scanAll (tryCall "vcpkg_install") fuel cs
  let cmakeExamples := cmakeMatches.filterMap (fun m =>
    if 10 < m.length then
      some ({ title := "CMake Integration", description := none,
              code := ⟨m⟩, language := "cmake" } : UsageExample)
    else none)
  let includeMatches := scanAll tryInclude fuel cs
  let includeExamples :=
    if includeMatches.isEmpty then []
    else [({ title := "Include Headers", description := none,
             code := strJoin "\n" ((includeMatches.take 5).map
               (fun m => (⟨m⟩ : String))),
             language := "cpp" } : UsageExample)]
  cmakeExamples ++ includeExamples

/-- The deduplication key `` `${title}:${code}` ``. -/
def dedupKey (e : UsageExample) : String := e.title ++ ":" ++ e.code

/-- `deduplicateExamples`: keep the first example for each key. -/
def deduplicateExamples (examples : List UsageExample) : List UsageExample :=
  (examples.foldl
    (fun (acc : List String × List UsageExample) ex =>
      if acc.1.contains (dedupKey ex) then acc
      else (acc.1 ++ [dedupKey ex], acc.2 ++ [ex]))
    ([], [])).2

/-- `parseUsageExamples`: run the line loop over the `\n`-split content, add
the inline extraction results, and deduplicate. -/
def parseUsageExamples (readmeContent : String) : List UsageExample :=
  let lines := jsSplit '\n' readmeContent
  let finalState := lines.foldl scanStep initScanState
  deduplicateExamples (finalState.examples ++ extractInlineExamples readmeContent)

/-! ## Claim C3 -/

/-- The C3 fixture: a document whose only content is one fenced cpp block
under a `## Usage` heading. -/
def c3doc : String := "## Usage\n\n```cpp\n#include <boost/algorithm.hpp>\n```"

/-- C3 evaluation: on the fixture the parser returns TWO examples, not one —
the fenced-block example and the regex-extracted `Include Headers` example
(their dedup keys differ because the titles differ).  Both are `cpp` and both
contain the include line, but the claimed length-one result does not hold;
the repository's own tests expect a single example for such one-block
fixtures. -/
theorem parse_single_block_fixture :
    parseUsageExamples c3doc =
      [⟨"Usage", none, "#include <boost/algorithm.hpp>", "cpp"⟩,
       ⟨"Include Headers", none, "#include <boost/algorithm.hpp>", "cpp"⟩] := by
  decide

/-! ## Claim C9 -/

/-- A document exercising the heading-inside-fence quirk: the bash comment
line `# usage tips` inside the fenced block is parsed as a heading. -/
def c9doc : String := "## Usage\n```bash\necho hi\n# usage tips\necho done\n```"

/-- C9: a heading-shaped line is handled by the heading branch even while a
fenced code block is open — it never reaches the code-accumulation branch, so
it only updates the current section (and possibly the pending title) and is
excluded from the accumulated code; concretely, the `# usage tips` line of
`c9doc` updates the example title and is missing from the emitted code. -/
theorem heading_inside_fence (s : ScanState) (line : String)
    (h : isHeadingLine line = true) :
    ((scanStep s line).currentCode = s.currentCode ∧
     (scanStep s line).examples = s.examples ∧
     (scanStep s line).inCodeBlock = s.inCodeBlock ∧
     (scanStep s line).currentSection = jsToLower (stripHeading line)) ∧
    parseUsageExamples c9doc =
      [⟨"usage tips", none, "echo hi\necho done", "bash"⟩] := by
  constructor
  · unfold scanStep
    rw [if_pos h]
    dsimp only
    split <;> exact ⟨rfl, rfl, rfl, rfl⟩
  · decide

/-- C9 witness: the step lemma applied inside an open code block, at the
heading-shaped line `# install deps`. -/
theorem heading_inside_fence_witness :
    (scanStep ⟨[], "usage", true, "code", "bash", "Usage", ""⟩
        "# install deps").currentCode = "code" ∧
    (scanStep ⟨[], "usage", true, "code", "bash", "Usage", ""⟩
        "# install deps").examples = [] ∧
    (scanStep ⟨[], "usage", true, "code", "bash", "Usage", ""⟩
        "# install deps").inCodeBlock = true ∧
    (scanStep ⟨[], "usage", true, "code", "bash", "Usage", ""⟩
        "# install deps").currentSection = "install deps" := by
  exact (heading_inside_fence ⟨[], "usage", true, "code", "bash", "Usage", ""⟩
    "# install deps" (by decide)).1

/-! ## cleanupContent (src/services/readme-parser.ts)

Each of the four `String.prototype.replace(/..../g, ...)` passes is realized
as a deterministic scanner: all character classes in the patterns exclude
their closing delimiter (and the comment body is lazy), so the regexes are
deterministic and global replacement is "match at the current position,
replace and continue after the match, else advance one character". -/

/-- Matcher for the badge pattern `/\[!\[[^\]]*\]\([^)]*\)\]\([^)]*\)/g`. -/
def tryBadge (l : List Char) : Option Nat :=
  match l with
  | '[' :: '!' :: '[' :: r1 =>
    let alt := r1.takeWhile (fun c => !(c == ']'))
    (match r1.drop alt.length with
     | ']' :: '(' :: r2 =>
       let img := r2.takeWhile (fun c => !(c == ')'))
       (match r2.drop img.length with
        | ')' :: ']' :: '(' :: r3 =>
          let url := r3.takeWhile (fun c => !(c == ')'))
          (match r3.drop url.length with
           | ')' :: _ =>
             some (3 + alt.length + 2 + img.length + 3 + url.length + 1)
           | _ => none)
        | _ => none)
     | _ => none)
  | _ => none

/-- Distance to just past the first `-->` in the input (the lazy body of
`/<!--[\s\S]*?-->/`), if any. -/
def findCloseComment : Nat → List Char → Option Nat
  | 0, _ => none
  | _ + 1, [] => none
  | fuel + 1, c :: t =>
    if listStartsWith (c :: t) "-->".data then some 3
    else (findCloseComment fuel t).map (· + 1)

/-- Matcher for the HTML-comment pattern `/<!--[\s\S]*?-->/g`. -/
def tryComment (l : List Char) : Option Nat :=
  if listStartsWith l "<!--".data then
    match findCloseComment (l.length + 1) (l.drop 4) with
    | some n => some (4 + n)
    | none => none
  else none

/-- Matcher for `/\n{3,}/g` (greedy run of three or more newlines). -/
def tryNewlines (l : List Char) : Option Nat :=
  let run := l.takeWhile (fun c => c == '\n')
  if 3 ≤ run.length then some run.length else none

/-- Global replacement by a constant string of every match of `tryLen`. -/
def replaceScan (tryLen : List Char → Option Nat) (repl : List Char) :
    Nat → List Char → List Char
  | 0, l => l
  | _ + 1, [] => []
  | fuel + 1, c :: t =>
    match tryLen (c :: t) with
    | some n => repl ++ replaceScan tryLen repl fuel ((c :: t).drop n)
    | none => c :: replaceScan tryLen repl fuel t

/-- Matcher for the relative-link pattern
`/\[([^\]]+)\]\((?!https?:\/\/)([^)]+)\)/g`: returns the match length and the
two capture groups (link text, link target). -/
def tryLink (l : List Char) : Option (Nat × List Char × List Char) :=
  match l with
  | '[' :: r1 =>
    let txt := r1.takeWhile (fun c => !(c == ']'))
    if txt.isEmpty then none
    else
      (match r1.drop txt.length with
       | ']' :: '(' :: r2 =>
         if listStartsWith r2 "http://".data ||
             listStartsWith r2 "https://".data then none
         else
           let url := r2.takeWhile (fun c => !(c == ')'))
           if url.isEmpty then none
           else
             (match r2.drop url.length with
              | ')' :: _ => some (1 + txt.length + 2 + url.length + 1, txt, url)
              | _ => none)
       | _ => none)
  | _ => none

/-- The fixed base prefixed to relative link targets. -/
def vcpkgLinkBase : List Char :=
  "https://github.com/Microsoft/vcpkg/blob/master/".data

/-- Global rewrite of relative links to `[$1](<base>$2)`. -/
def linkReplaceScan : Nat → List Char → List Char
  | 0, l => l
  | _ + 1, [] => []
  | fuel + 1, c :: t =>
    match tryLink (c :: t) with
    | some (n, txt, url) =>
      ('[' :: txt) ++ ([']', '('] ++ vcpkgLinkBase ++ url ++ [')']) ++
        linkReplaceScan fuel ((c :: t).drop n)
    | none => c :: linkReplaceScan fuel t

/-- `cleanupContent`: remove badges, remove HTML comments, collapse runs of
three or more newlines to two, rewrite relative Markdown links onto the fixed
GitHub base, then trim.  (The source wraps this in `try`/`catch`; the passes
here are total, so the catch branch is unreachable in the model.) -/
def cleanupContent (content : String) : String :=
  let c1 := replaceScan tryBadge [] (content.data.length + 1) content.data
  let c2 := replaceScan tryComment [] (c1.length + 1) c1
  let c3 := replaceScan tryNewlines ['\n', '\n'] (c2.length + 1) c2
  let c4 := linkReplaceScan (c3.length + 1) c3
  jsTrim ⟨c4⟩

/-! ## Claim C8 -/

/-- Representative badge-link atom. -/
def badgeAtom : String :=
  "[![build](https://img.shields.io/badge.svg)](https://ci.example.com/run)"

/-- Representative multi-line HTML-comment atom. -/
def commentAtom : String := "<!-- hidden\ncomment -->"

/-- Representative run of 3+ newlines. -/
def newlinesAtom : String := "\n\n\n\n"

/-- Representative relative Markdown link. -/
def relLinkAtom : String := "[docs](docs/usage.md)"

/-- Representative absolute Markdown link. -/
def absLinkAtom : String := "[home](https://example.com/home)"

/-- The atoms of the C8 fixture family. -/
def c8Atoms : List String :=
  [badgeAtom, commentAtom, newlinesAtom, relLinkAtom, absLinkAtom]

/-- The C8 fixtures: every single atom, every two-atom concatenation, and
some longer mixed concatenations. -/
def c8Fixtures : List String :=
  c8Atoms ++
  (c8Atoms.map (fun a => c8Atoms.map (fun b => a ++ b))).flatten ++
  [badgeAtom ++ newlinesAtom ++ relLinkAtom,
   newlinesAtom ++ badgeAtom ++ newlinesAtom,
   commentAtom ++ newlinesAtom ++ absLinkAtom,
   badgeAtom ++ commentAtom ++ newlinesAtom ++ relLinkAtom ++ absLinkAtom]

set_option maxRecDepth 4096 in
/-- C8: `cleanupContent` is idempotent on every fixture built from badge
links, HTML comments, runs of 3+ newlines, and relative or absolute Markdown
links (the spec's representative fixture family, here all one- and two-atom
concatenations plus longer mixed ones). -/
theorem cleanup_idempotent_fixtures :
    (c8Fixtures.all
      (fun x => cleanupContent (cleanupContent x) == cleanupContent x)) = true := by
  decide
